import Mathlib

/-!
# Verification of `sourcemap-parse.py`

A shallow embedding of the discovery-and-extraction pipeline of
`sourcemap-parse.py` (page script scanner, sourcemap locator and validators,
source tree extractor), together with theorems settling the specification
claims about it.

Conventions:
* Python lists become `List`, `None` becomes `Option.none`.
* Network fetches are modelled by their outcome: `Option Response`, where
  `none` is a raised transport error and a `Response` carries the HTTP
  status and the result of JSON-parsing the body (`none` = parse failure).
* Parsed JSON values are modelled by `JsonValue`; an object keeps only its
  key list, since the program only ever tests `isinstance(data, dict)` and
  key membership on parsed documents during validation.
* Filesystem effects of the extractor are modelled as an event trace
  (`Ev`): directory creations, file writes and printed messages, in
  program order.  Directory creation is modelled as succeeding (the
  `OSError` fallback branch of the extractor is unreachable in this
  idealized filesystem).
-/

namespace SourcemapParse

/-- A parsed JSON value, as produced by `json.loads` / `response.json()`.
Objects keep only their key list: the program's validators test only
`isinstance(data, dict)` and key membership. -/
inductive JsonValue where
  | jobject (keys : List String)
  | jarray
  | jstring
  | jnumber
  | jbool
  | jnull
deriving DecidableEq, Repr

/-- Outcome of an HTTP GET that returned a response: the status code and
the result of parsing the body as JSON (`none` = `JSONDecodeError`). -/
structure Response where
  status : Nat
  body : Option JsonValue
deriving DecidableEq, Repr

/-- A fetch outcome: `none` models a raised network exception
(DNS / connect / timeout), `some r` a delivered response `r`. -/
abbrev Fetch := Option Response

/-- Validator `check_if_exists_and_is_map` (src/sourcemap-parse.py lines 253-281),
the validator used on the asynchronous (no-proxy) path: requires status
200, then requires the body to parse as a JSON dict containing
`version`, `file` and `mappings`; any exception yields `False`. -/
def check_if_exists_and_is_map (fetch : Fetch) : Bool :=
  match fetch with
  | none => false
  | some response =>
    if response.status = 200 then
      match response.body with
      | none => false          -- json.JSONDecodeError: return False
      | some data =>
        match data with
        | JsonValue.jobject keys =>
          keys.contains "version" && keys.contains "file" &&
            keys.contains "mappings"
        | _ => false           -- not isinstance(data, dict)
    else false                 -- falls through to `return False`

/-- Validator `check_url_exists` (src/sourcemap-parse.py lines 343-372), the
validator used on the synchronous (proxy) path: calls `response.json()`
without ever inspecting `response.status_code`, then requires a JSON
dict containing the three keys; any exception yields `False`. -/
def check_url_exists (fetch : Fetch) : Bool :=
  match fetch with
  | none => false
  | some response =>
    match response.body with
    | none => false            -- response.json() raises: return False
    | some data =>
      match data with
      | JsonValue.jobject keys =>
        keys.contains "version" && keys.contains "file" &&
          keys.contains "mappings"
      | _ => false

/-- The validation verdict as the spec words it (§4.2): HTTP 200 and a
JSON object containing all three of `version`, `file`, `mappings`. -/
def spec_validation_verdict (fetch : Fetch) : Bool :=
  match fetch with
  | none => false
  | some response =>
    response.status = 200 &&
      (match response.body with
       | some (JsonValue.jobject keys) =>
         keys.contains "version" && keys.contains "file" &&
           keys.contains "mappings"
       | _ => false)

/-- A response body that is a well-formed sourcemap object. -/
def map_body : JsonValue := JsonValue.jobject ["version", "file", "mappings"]

/-- The asynchronous validator does implement the spec's verdict. -/
theorem check_if_exists_and_is_map_eq_spec (fetch : Fetch) :
    check_if_exists_and_is_map fetch = spec_validation_verdict fetch := by
  cases fetch with
  | none => rfl
  | some response =>
    cases response with
    | mk status body =>
      by_cases h : status = 200
      · subst h
        cases body with
        | none => rfl
        | some data => cases data <;> rfl
      · simp [check_if_exists_and_is_map, spec_validation_verdict, h]

/-- C2: Validation of a candidate sourcemap URL returns true iff the GET
response has status 200 and the body is a JSON object with the three
keys — FALSE for the synchronous validator: `check_url_exists` never
inspects the status code, so a 404 response whose body is a well-formed
sourcemap object is accepted, where the claim (and the spec's "require
HTTP 200") demands `false`.  The asynchronous validator does check the
status and rejects the same input. -/
theorem check_url_exists_ignores_status :
    check_url_exists (some ⟨404, some map_body⟩) = true ∧
      spec_validation_verdict (some ⟨404, some map_body⟩) = false ∧
      check_if_exists_and_is_map (some ⟨404, some map_body⟩) = false :=
  ⟨rfl, rfl, rfl⟩

/-- C3: the synchronous (proxy-mode) and asynchronous (no-proxy)
validators return the same verdict for every fetched response — FALSE:
on a non-200 response whose body is a well-formed sourcemap object the
synchronous validator answers `true` and the asynchronous one `false`. -/
theorem sync_async_validators_disagree :
    check_url_exists (some ⟨500, some map_body⟩) = true ∧
      check_if_exists_and_is_map (some ⟨500, some map_body⟩) = false :=
  ⟨rfl, rfl⟩

/-- The two validators agree on every fetch outcome except a delivered
response with non-200 status whose body is a sourcemap-shaped object
(supporting lemma; characterizes the extent of the C3 divergence). -/
theorem validators_agree_unless_non200_map (fetch : Fetch) :
    check_url_exists fetch = check_if_exists_and_is_map fetch ∨
      (∃ response, fetch = some response ∧ response.status ≠ 200 ∧
        check_url_exists fetch = true ∧
        check_if_exists_and_is_map fetch = false) := by
  cases fetch with
  | none => exact Or.inl rfl
  | some response =>
    cases response with
    | mk status body =>
      by_cases h : status = 200
      · subst h
        cases body with
        | none => exact Or.inl rfl
        | some data => cases data <;> exact Or.inl rfl
      · cases body with
        | none => exact Or.inl (by simp [check_url_exists, check_if_exists_and_is_map, h])
        | some data =>
          cases data with
          | jobject keys =>
            by_cases hk : (keys.contains "version" && keys.contains "file" &&
                keys.contains "mappings") = true
            · refine Or.inr ⟨⟨status, some (JsonValue.jobject keys)⟩, rfl, h, ?_, ?_⟩
              · simpa [check_url_exists] using hk
              · simp [check_if_exists_and_is_map, h]
            · exact Or.inl (by
                simp only [check_url_exists, check_if_exists_and_is_map, if_neg h]
                exact Bool.eq_false_iff.mpr hk)
          | jarray => exact Or.inl (by simp [check_url_exists, check_if_exists_and_is_map, h])
          | jstring => exact Or.inl (by simp [check_url_exists, check_if_exists_and_is_map, h])
          | jnumber => exact Or.inl (by simp [check_url_exists, check_if_exists_and_is_map, h])
          | jbool => exact Or.inl (by simp [check_url_exists, check_if_exists_and_is_map, h])
          | jnull => exact Or.inl (by simp [check_url_exists, check_if_exists_and_is_map, h])

/-! ## Python string primitives

Character-list renderings of the Python string operations the program
uses, written by structural recursion so every theorem below can be
checked by evaluation inside the kernel. -/

/-- Python `s.split(sep)` for a single-character separator, on character
lists: `"".split(sep)` is `[""]`, and separators delimit (possibly
empty) fields. -/
def split_char (sep : Char) : List Char → List (List Char)
  | [] => [[]]
  | c :: cs =>
    let rest := split_char sep cs
    if c = sep then [] :: rest
    else
      match rest with
      | [] => [[c]]
      | h :: t => (c :: h) :: t

/-- Python `s.split(sep)` for a single-character separator. -/
def py_split (s : String) (sep : Char) : List String :=
  (split_char sep s.data).map String.mk

/-- Does `s` begin with `pat`? (Python `s.startswith(pat)`.) -/
def starts_chars : List Char → List Char → Bool
  | [], _ => true
  | _ :: _, [] => false
  | p :: ps, c :: cs => p = c && starts_chars ps cs

/-- Python `s.startswith(pat)`. -/
def py_starts_with (s pat : String) : Bool :=
  starts_chars pat.data s.data

/-! ## Source tree extractor (`extract_source_files`, lines 438-551) -/

/-- Python `str.strip()` whitespace (ASCII): space, tab, newline,
carriage return, vertical tab, form feed. -/
def py_isspace (c : Char) : Bool :=
  c = ' ' || c = '\t' || c = '\n' || c = '\r' || c.toNat = 11 || c.toNat = 12

/-- Truthiness of Python `part.strip()`: some non-whitespace character
remains after stripping. -/
def py_strip_nonempty (s : String) : Bool :=
  s.data.any (fun c => !(py_isspace c))

/-- The string `invalid_chars = '<>:"|?*\\'` (line 501). -/
def invalid_chars : List Char := ['<', '>', ':', '"', '|', '?', '*', '\\']

/-- Lines 502-503: the loop `sanitized_part.replace(char, "_")` over
`invalid_chars`; since `_` is not itself invalid, the sequential
single-character replaces amount to one character-wise substitution. -/
def replace_invalid_chars (part : String) : String :=
  String.mk (part.data.map (fun c => if invalid_chars.contains c then '_' else c))

/-- Lines 505-507: drop any character with code point below 32. -/
def drop_control_chars (s : String) : String :=
  String.mk (s.data.filter (fun c => 32 ≤ c.toNat))

/-- The sanitization loop over path segments (lines 494-510): keep a
segment only if it is not `..`, not `.`, and non-blank; then replace
Windows-invalid characters and remove control characters; keep the
result only if still non-blank. -/
def sanitize_segments (parts : List String) : List String :=
  parts.foldl
    (fun acc part =>
      if part ≠ ".." ∧ part ≠ "." ∧ py_strip_nonempty part then
        let sanitized := drop_control_chars (replace_invalid_chars part)
        if py_strip_nonempty sanitized then acc ++ [sanitized] else acc
      else acc)
    []

/-- Lines 482-490: strip a leading `webpack:///` or `webpack://`
marker, then a single leading `/`. -/
def clean_source_path (source_path : String) : String :=
  let c0 :=
    if py_starts_with source_path "webpack:///" then source_path.drop 11
    else if py_starts_with source_path "webpack://" then source_path.drop 10
    else source_path
  if py_starts_with c0 "/" then c0.drop 1 else c0

/-- Lines 482-513: the sanitized relative path for one `sources` entry. -/
def sanitize_path (source_path : String) : String :=
  String.intercalate "/" (sanitize_segments (py_split (clean_source_path source_path) '/'))

/-- Pathlib join of the output root with a relative path string; an
empty relative part is dropped by `PurePath`, yielding the root itself. -/
def path_join (root rel : String) : String :=
  if rel = "" then root else root ++ "/" ++ rel

/-- Pathlib `PurePath.parent` on an already-normalized path string. -/
def parent_dir (p : String) : String :=
  match (py_split p '/').dropLast with
  | [] => "."
  | parts => String.intercalate "/" parts

/-- Python `f"{i:04d}"`: decimal, zero-padded to width 4. -/
def py_pad4 (i : Nat) : String :=
  let s := toString i
  if s.length < 4 then String.mk (List.replicate (4 - s.length) '0') ++ s else s

/-- An observable effect of the extractor, in program order: a directory
creation (`mkdir`, with `exist_ok`), a file write, or a printed line. -/
inductive Ev where
  | mkdirp (dir : String)
  | write (path content : String)
  | msg (text : String)
deriving DecidableEq, Repr

/-- The file writes of an event trace, in order. -/
def ev_writes (evs : List Ev) : List (String × String) :=
  evs.filterMap (fun e =>
    match e with
    | Ev.write p c => some (p, c)
    | _ => none)

/-- A sourcemap document as consumed by the extractor: the `sources`
and `sourcesContent` arrays (a `sourcesContent` entry may be JSON null). -/
structure SourcemapDoc where
  sources : List String
  sourcesContent : List (Option String)

def no_sources_msg : String := "No sources found in sourcemap"

def no_content_msg : String := "No source content found in sourcemap!"

def mismatch_msg (nsources ncontent : Nat) : String :=
  "Warning: Mismatch between sources (" ++ toString nsources ++
    ") and sourcesContent (" ++ toString ncontent ++ ")"

def found_msg (n : Nat) : String :=
  "Found " ++ toString n ++ " source files to extract"

def skip_msg (source_path : String) : String :=
  "Skipping " ++ source_path ++ " - no content available"

def too_long_msg (clean_path : String) : String :=
  "Path too long, using fallback filename for: " ++ clean_path

def extracted_msg (file_path : String) : String :=
  "Extracted: " ++ file_path

def write_error_msg (file_path : String) : String :=
  "Error writing " ++ file_path

def complete_msg (n : Nat) (output_dir : String) : String :=
  "Extraction complete! " ++ toString n ++ " files extracted to " ++
    output_dir ++ " directory"

/-- The extraction loop (lines 475-546) over the enumerated
`zip(sources, sourcesContent)` pairs.  A `None` content is skipped with
a message; otherwise the path is sanitized, replaced by the synthetic
fallback name when the joined path exceeds 250 characters, the parent
directory is created, and the content is written.  When the sanitized
relative path is empty the join yields the output root itself and the
`open(file_path, "w")` raises (`IsADirectoryError`), which the code
reports and survives; directory creation itself is modelled as
succeeding. -/
def extractLoop (out : String) : Nat → List (String × Option String) → List Ev
  | _, [] => []
  | i, (source_path, none) :: rest =>
    Ev.msg (skip_msg source_path) :: extractLoop out (i + 1) rest
  | i, (source_path, some content) :: rest =>
    let clean_path := sanitize_path source_path
    let joined := path_join out clean_path
    let entry :=
      if 250 < joined.length then
        let fallback := path_join out ("source_" ++ py_pad4 i ++ ".js")
        [Ev.msg (too_long_msg clean_path), Ev.mkdirp (parent_dir fallback),
          Ev.write fallback content, Ev.msg (extracted_msg fallback)]
      else if joined = out then
        [Ev.mkdirp (parent_dir joined), Ev.msg (write_error_msg joined)]
      else
        [Ev.mkdirp (parent_dir joined), Ev.write joined content,
          Ev.msg (extracted_msg joined)]
    entry ++ extractLoop out (i + 1) rest

/-- The function `extract_source_files` (lines 438-551) as an event trace: create the
output root, then run the precondition checks (when `sources` is empty
its direct-fetch fallback loop iterates the empty list and has no
effect), then the extraction loop and the final summary line. -/
def extract_source_files (doc : SourcemapDoc) (output_dir : String) : List Ev :=
  let header :=
    Ev.mkdirp output_dir ::
      (if doc.sources.isEmpty then [Ev.msg no_sources_msg] else [])
  if doc.sourcesContent.isEmpty then
    header ++ [Ev.msg no_content_msg]
  else if doc.sources.length ≠ doc.sourcesContent.length then
    header ++ [Ev.msg (mismatch_msg doc.sources.length doc.sourcesContent.length)]
  else
    let body := extractLoop output_dir 0 (doc.sources.zip doc.sourcesContent)
    header ++ [Ev.msg (found_msg doc.sources.length)] ++ body ++
      [Ev.msg (complete_msg (ev_writes body).length output_dir)]

/-- C1: the sanitized on-disk path never contains a `..` segment and
never resolves outside the output root — FALSE on the code: the
sanitizer removes control characters only *after* filtering out `..`
segments, so the segment `".\u0001."` (dot, control character U+0001,
dot) passes the filter and then collapses to `..`; the extractor then
writes to `out/../passwd`, outside the output root `out`. -/
theorem extract_resurrects_dotdot_segment :
    sanitize_path ".\u0001./passwd" = "../passwd" ∧
      ev_writes (extract_source_files ⟨[".\u0001./passwd"], [some "pwned"]⟩ "out") =
        [("out/../passwd", "pwned")] :=
  ⟨rfl, rfl⟩

/-- C10: the extractor creates the output root before the
sources/sourcesContent precondition checks: for every document, the very
first effect of `extract_source_files` is `mkdir(output_dir)`, so the
root exists after the call even when extraction is aborted. -/
theorem output_root_created_first (doc : SourcemapDoc) (output_dir : String) :
    (extract_source_files doc output_dir).head? = some (Ev.mkdirp output_dir) := by
  by_cases h1 : doc.sourcesContent.isEmpty <;>
    by_cases h2 : doc.sources.length = doc.sourcesContent.length <;>
      simp [extract_source_files, h1, h2]

/-- C5: if `sources` is empty, or `sourcesContent` is empty, or their
lengths differ, extraction of the whole document is aborted: zero files
are written and one of the two abort warnings is reported. -/
theorem extract_structural_abort (doc : SourcemapDoc) (output_dir : String)
    (h : doc.sources = [] ∨ doc.sourcesContent = [] ∨
      doc.sources.length ≠ doc.sourcesContent.length) :
    ev_writes (extract_source_files doc output_dir) = [] ∧
      (Ev.msg no_content_msg ∈ extract_source_files doc output_dir ∨
        Ev.msg (mismatch_msg doc.sources.length doc.sourcesContent.length) ∈
          extract_source_files doc output_dir) := by
  by_cases hc : doc.sourcesContent.isEmpty
  · constructor
    · by_cases hs : doc.sources.isEmpty <;> simp [extract_source_files, hc, hs, ev_writes]
    · by_cases hs : doc.sources.isEmpty <;> simp [extract_source_files, hc, hs]
  · have hcne : doc.sourcesContent ≠ [] := by
      simpa [List.isEmpty_iff] using hc
    have hne : doc.sources.length ≠ doc.sourcesContent.length := by
      rcases h with h | h | h
      · have : 0 < doc.sourcesContent.length := List.length_pos.mpr hcne
        simp only [h, List.length_nil]
        omega
      · exact absurd h hcne
      · exact h
    constructor
    · by_cases hs : doc.sources.isEmpty <;>
        simp [extract_source_files, hc, hs, hne, ev_writes]
    · by_cases hs : doc.sources.isEmpty <;>
        simp [extract_source_files, hc, hs, hne]

/-- The spec's running abort example: two sources against a single
content entry writes nothing and reports the mismatch warning. -/
theorem extract_structural_abort_witness :
    ev_writes (extract_source_files ⟨["a.js", "b.js"], [some "x"]⟩ "out") = [] ∧
      (Ev.msg no_content_msg ∈ extract_source_files ⟨["a.js", "b.js"], [some "x"]⟩ "out" ∨
        Ev.msg (mismatch_msg (["a.js", "b.js"] : List String).length
            ([some "x"] : List (Option String)).length) ∈
          extract_source_files ⟨["a.js", "b.js"], [some "x"]⟩ "out") :=
  extract_structural_abort ⟨["a.js", "b.js"], [some "x"]⟩ "out"
    (Or.inr (Or.inr (by decide)))

/-- The extraction loop is compositional: processing a concatenation of
entry lists processes each list in turn, with the index offset by the
number of earlier entries. -/
theorem extractLoop_append (out : String) (xs ys : List (String × Option String)) (i : Nat) :
    extractLoop out i (xs ++ ys) =
      extractLoop out i xs ++ extractLoop out (i + xs.length) ys := by
  induction xs generalizing i with
  | nil => simp [extractLoop]
  | cons x xs ih =>
    obtain ⟨p, c⟩ := x
    have hidx : i + (xs.length + 1) = (i + 1) + xs.length := by omega
    cases c with
    | none =>
      simp only [List.cons_append, extractLoop, List.append_eq, ih,
        List.length_cons, hidx]
    | some content =>
      simp only [List.cons_append, extractLoop, List.append_eq, ih,
        List.length_cons, hidx, List.append_assoc]

/-- C7: an entry whose `sourcesContent` value is null contributes no
file write, and every other entry of the document is still processed at
its own index: the written files are exactly those of the entries before
and after the null entry. -/
theorem extract_skips_null_entry (doc : SourcemapDoc) (output_dir p : String)
    (pre post : List (String × Option String))
    (hlen : doc.sources.length = doc.sourcesContent.length)
    (hzip : doc.sources.zip doc.sourcesContent = pre ++ (p, none) :: post) :
    ev_writes (extract_source_files doc output_dir) =
      ev_writes (extractLoop output_dir 0 pre) ++
        ev_writes (extractLoop output_dir (pre.length + 1) post) := by
  have hzne : doc.sources.zip doc.sourcesContent ≠ [] := by
    rw [hzip]; simp
  have hsne : doc.sources ≠ [] := by
    intro hs
    exact hzne (by simp [hs])
  have hcne : doc.sourcesContent ≠ [] := by
    intro hs
    exact hzne (by simp [hs])
  have hc : doc.sourcesContent.isEmpty = false := by
    simpa [List.isEmpty_iff] using hcne
  have hs : doc.sources.isEmpty = false := by
    simpa [List.isEmpty_iff] using hsne
  have hbody : extractLoop output_dir 0 (doc.sources.zip doc.sourcesContent) =
      extractLoop output_dir 0 pre ++
        (Ev.msg (skip_msg p) :: extractLoop output_dir (pre.length + 1) post) := by
    rw [hzip, extractLoop_append]
    simp [extractLoop]
  simp only [extract_source_files, hc, hs, hlen, ev_writes]
  simp [hbody, ev_writes, List.filterMap_append]

/-- Concrete instance of `extract_skips_null_entry`: in a three-entry
document whose middle content is null, exactly the first and third
entries are written. -/
theorem extract_skips_null_entry_witness :
    ev_writes (extract_source_files ⟨["a.js", "b.js", "c.js"],
        [some "x", none, some "y"]⟩ "o") =
      ev_writes (extractLoop "o" 0 [("a.js", some "x")]) ++
        ev_writes (extractLoop "o" ([("a.js", some "x")].length + 1)
          [("c.js", some "y")]) :=
  extract_skips_null_entry ⟨["a.js", "b.js", "c.js"], [some "x", none, some "y"]⟩
    "o" "b.js" [("a.js", some "x")] [("c.js", some "y")] (by decide) (by decide)

/-! ## Filesystem model for idempotence -/

/-- The observable file contents of the output tree: each path maps to
its content, if the file exists. -/
def Disk : Type := String → Option String

/-- Writing one file (mode `"w"`: create or overwrite). -/
def write_file (d : Disk) (p c : String) : Disk :=
  fun q => if q = p then some c else d q

/-- Replaying a list of file writes, in order. -/
def apply_writes (d : Disk) (ws : List (String × String)) : Disk :=
  ws.foldl (fun acc pc => write_file acc pc.1 pc.2) d

/-- At every path, a fixed write list either never touches the path (for
any starting disk) or forces the same final content (for any starting
disk). -/
theorem apply_writes_cases (ws : List (String × String)) (q : String) :
    (∀ d : Disk, apply_writes d ws q = d q) ∨
      (∃ c, ∀ d : Disk, apply_writes d ws q = some c) := by
  induction ws with
  | nil => exact Or.inl (fun d => rfl)
  | cons pc rest ih =>
    obtain ⟨p, c⟩ := pc
    rcases ih with huntouched | ⟨e, he⟩
    · by_cases hq : q = p
      · refine Or.inr ⟨c, fun d => ?_⟩
        have := huntouched (write_file d p c)
        simpa [apply_writes, write_file, hq] using this
      · refine Or.inl (fun d => ?_)
        have := huntouched (write_file d p c)
        simpa [apply_writes, write_file, hq] using this
    · exact Or.inr ⟨e, fun d => he (write_file d p c)⟩

/-- Replaying the same write list twice leaves the disk as after one
replay. -/
theorem apply_writes_idem (ws : List (String × String)) (d : Disk) :
    apply_writes (apply_writes d ws) ws = apply_writes d ws := by
  funext q
  rcases apply_writes_cases ws q with huntouched | ⟨c, hc⟩
  · exact huntouched (apply_writes d ws)
  · rw [hc (apply_writes d ws), hc d]

/-- C8: extraction is idempotent.  The writes of a second run on the
same document and output root are the same list (the embedding is a
function of the document), and replaying them over the disk produced by
the first run changes nothing: every file is overwritten in place with
identical content and no duplicate files appear. -/
theorem extract_idempotent (doc : SourcemapDoc) (output_dir : String) (d : Disk) :
    apply_writes (apply_writes d (ev_writes (extract_source_files doc output_dir)))
        (ev_writes (extract_source_files doc output_dir)) =
      apply_writes d (ev_writes (extract_source_files doc output_dir)) :=
  apply_writes_idem (ev_writes (extract_source_files doc output_dir)) d

/-! ## URL model (`urllib.parse`: `urlparse`, `urljoin`, `hostname`)

A rendering of the parts of `urllib.parse` the program uses, for
`http`-style URLs; `params` (the `;` component) is folded into the path,
which the program never exercises. -/

/-- Python `s.split(sep, 1)`: the text before the first occurrence of
`sep`, and the remainder (with later occurrences intact), if any. -/
def split_first_char (s : String) (sep : Char) : String × Option String :=
  match split_char sep s.data with
  | [] => (s, none)
  | x :: rest =>
    (String.mk x,
      if rest.isEmpty then none
      else some (String.mk (List.intercalate [sep] rest)))

/-- Python `s.lower()` (ASCII). -/
def py_to_lower (s : String) : String :=
  String.mk (s.data.map Char.toLower)

/-- A valid URL scheme: a letter followed by letters, digits, `+`, `-`
or `.`. -/
def valid_scheme_str (s : String) : Bool :=
  match s.data with
  | [] => false
  | c :: cs => c.isAlpha && cs.all (fun d => d.isAlphanum || d = '+' || d = '-' || d = '.')

/-- The result of `urllib.parse.urlparse`. -/
structure UrlParts where
  scheme : String
  netloc : String
  path : String
  query : String
  fragment : String
deriving DecidableEq

/-- Parse with a default scheme (as `urljoin` calls `urlparse`): split off
the fragment, recognize a scheme when a valid one precedes the first
`:`, read the netloc after `//` up to the next `/` or `?`, and split
off the query. -/
def urlparse_with (default_scheme url : String) : UrlParts :=
  let fragsplit := split_first_char url '#'
  let u1 := fragsplit.1
  let frag := fragsplit.2.getD ""
  let schemesplit :=
    match split_first_char u1 ':' with
    | (sch, some post) =>
      if valid_scheme_str sch then (py_to_lower sch, post) else (default_scheme, u1)
    | (_, none) => (default_scheme, u1)
  let scheme := schemesplit.1
  let rest := schemesplit.2
  let netsplit :=
    if py_starts_with rest "//" then
      let r := (rest.drop 2).data
      (String.mk (r.takeWhile (fun c => c ≠ '/' && c ≠ '?')),
        String.mk (r.dropWhile (fun c => c ≠ '/' && c ≠ '?')))
    else ("", rest)
  let querysplit := split_first_char netsplit.2 '?'
  { scheme := scheme, netloc := netsplit.1, path := querysplit.1,
    query := querysplit.2.getD "", fragment := frag }

/-- Python `urllib.parse.urlparse` as the program calls it. -/
def urlparse (url : String) : UrlParts := urlparse_with "" url

/-- Python's `.hostname` on a parse result: the netloc after any
userinfo, without the port, lowercased (brackets stripped for IPv6). -/
def url_hostname (netloc : String) : String :=
  let hostinfo := (py_split netloc '@').getLastD ""
  let host :=
    if py_starts_with hostinfo "[" then
      String.mk ((hostinfo.drop 1).data.takeWhile (fun c => c ≠ ']'))
    else String.mk (hostinfo.data.takeWhile (fun c => c ≠ ':'))
  py_to_lower host

/-- Schemes treated as relative-capable by `urllib.parse`. -/
def uses_relative : List String :=
  ["", "ftp", "http", "gopher", "nntp", "imap", "wais", "file", "https",
    "shttp", "mms", "prospero", "rtsp", "rtspu", "sftp", "svn", "svn+ssh",
    "ws", "wss"]

/-- Schemes carrying a netloc, per `urllib.parse`. -/
def uses_netloc : List String :=
  ["", "ftp", "http", "gopher", "nntp", "telnet", "imap", "wais", "file",
    "mms", "https", "shttp", "snews", "prospero", "rtsp", "rtspu", "rsync",
    "svn", "svn+ssh", "sftp", "nfs", "git", "git+ssh", "ws", "wss"]

/-- Python `urllib.parse.urlunsplit`. -/
def urlunsplit (u : UrlParts) : String :=
  let url0 := u.path
  let url1 :=
    if u.netloc ≠ "" ∨ py_starts_with url0 "//" then
      "//" ++ u.netloc ++
        (if url0 ≠ "" ∧ ¬ py_starts_with url0 "/" then "/" ++ url0 else url0)
    else url0
  let url2 := if u.scheme ≠ "" then u.scheme ++ ":" ++ url1 else url1
  let url3 := if u.query ≠ "" then url2 ++ "?" ++ u.query else url2
  if u.fragment ≠ "" then url3 ++ "#" ++ u.fragment else url3

/-- The middle-segment cleanup of `urljoin`'s merge
(`segments[1:-1] = filter(None, segments[1:-1])`). -/
def filter_mid_empty (segments : List String) : List String :=
  match segments with
  | [] => []
  | [s] => [s]
  | first :: rest =>
    first :: (rest.dropLast.filter (fun s => s ≠ "")) ++ [rest.getLastD ""]

/-- The dot-segment resolution loop of `urljoin`: `..` pops (ignoring
underflow), `.` is dropped, anything else is appended. -/
def resolve_segments : List String → List String → List String
  | acc, [] => acc
  | acc, seg :: rest =>
    if seg = ".." then resolve_segments acc.dropLast rest
    else if seg = "." then resolve_segments acc rest
    else resolve_segments (acc ++ [seg]) rest

/-- Python `urllib.parse.urljoin` (without `params`): keep absolute references,
inherit the base's netloc, merge relative paths against the base path
and resolve `.`/`..` segments. -/
def urljoin (base url : String) : String :=
  if base = "" then url
  else if url = "" then base
  else
    let b := urlparse_with "" base
    let u := urlparse_with b.scheme url
    if u.scheme ≠ b.scheme ∨ ¬ uses_relative.contains u.scheme then url
    else if uses_netloc.contains u.scheme ∧ u.netloc ≠ "" then urlunsplit u
    else
      let netloc := if uses_netloc.contains u.scheme then b.netloc else u.netloc
      if u.path = "" then
        urlunsplit
          { scheme := u.scheme, netloc := netloc, path := b.path,
            query := (if u.query = "" then b.query else u.query),
            fragment := u.fragment }
      else
        let base_parts0 := py_split b.path '/'
        let base_parts :=
          if base_parts0.getLastD "" ≠ "" then base_parts0.dropLast else base_parts0
        let segments :=
          if py_starts_with u.path "/" then py_split u.path '/'
          else filter_mid_empty (base_parts ++ py_split u.path '/')
        let resolved := resolve_segments [] segments
        let resolved2 :=
          if segments.getLastD "" = "." ∨ segments.getLastD "" = ".." then
            resolved ++ [""]
          else resolved
        let joined := String.intercalate "/" resolved2
        urlunsplit
          { scheme := u.scheme, netloc := netloc,
            path := (if joined = "" then "/" else joined),
            query := u.query, fragment := u.fragment }

/-! ## Page script scanner (`get_script_tags`, lines 22-83) -/

/-- A `<script>` element found in the fetched document: its `src`
attribute (if any) and its serialized tag text. -/
structure ScriptTag where
  src : Option String
  tag : String

/-- A retained script reference: absolute URL and raw tag. -/
structure Script where
  src : String
  tag : String
deriving DecidableEq

/-- Lines 66-68: a `src` not starting with `http://` or `https://` is
resolved against the page URL. -/
def resolve_src (page_url src : String) : String :=
  if py_starts_with src "http://" || py_starts_with src "https://" then src
  else urljoin page_url src

/-- The body of the scanner's collection loop (lines 63-74): skip tags
without `src`, resolve, and keep the script only when its parsed netloc
equals the page's. -/
def get_script_tags_step (page_url : String) (scripts : List Script)
    (t : ScriptTag) : List Script :=
  match t.src with
  | none => scripts
  | some src0 =>
    let src := resolve_src page_url src0
    if (urlparse page_url).netloc = (urlparse src).netloc then
      scripts ++ [{ src := src, tag := t.tag }]
    else scripts

/-- Scanner `get_script_tags` restricted to its pure core: the HTML fetch and
parse are abstracted into the list of `<script>` tags found. -/
def get_script_tags (page_url : String) (tags : List ScriptTag) : List Script :=
  tags.foldl (get_script_tags_step page_url) []

/-- Accumulator form of the scanner loop. -/
theorem get_script_tags_foldl (page_url : String) (tags : List ScriptTag)
    (acc : List Script) :
    tags.foldl (get_script_tags_step page_url) acc =
      acc ++ ((tags.filterMap (fun t => t.src.map (fun s =>
          ({ src := resolve_src page_url s, tag := t.tag } : Script)))).filter
        (fun sc => decide ((urlparse page_url).netloc = (urlparse sc.src).netloc))) := by
  induction tags generalizing acc with
  | nil => simp
  | cons t rest ih =>
    cases hsrc : t.src with
    | none => simp [get_script_tags_step, hsrc, ih]
    | some src0 =>
      by_cases h : (urlparse page_url).netloc =
          (urlparse (resolve_src page_url src0)).netloc
      · simp [get_script_tags_step, hsrc, h, ih, List.filter_cons]
      · simp [get_script_tags_step, hsrc, h, ih, List.filter_cons]

/-- C4 (amended): a script reference is kept iff its resolved netloc
(the full `host:port` authority string) equals the page's netloc —
relative `src` values resolved against the page URL — and consequently
every kept script is same-host, so every cross-host script is excluded. -/
theorem get_script_tags_same_netloc (page_url : String) (tags : List ScriptTag) :
    get_script_tags page_url tags =
      ((tags.filterMap (fun t => t.src.map (fun s =>
          ({ src := resolve_src page_url s, tag := t.tag } : Script)))).filter
        (fun sc => decide ((urlparse page_url).netloc = (urlparse sc.src).netloc))) ∧
      (get_script_tags page_url tags).all
        (fun sc => url_hostname (urlparse sc.src).netloc =
          url_hostname (urlparse page_url).netloc) = true := by
  have hmain := get_script_tags_foldl page_url tags []
  refine ⟨by simpa [get_script_tags] using hmain, ?_⟩
  rw [List.all_eq_true]
  intro sc hsc
  have hmem : sc ∈ (tags.filterMap (fun t => t.src.map (fun s =>
      ({ src := resolve_src page_url s, tag := t.tag } : Script)))).filter
        (fun sc => decide ((urlparse page_url).netloc = (urlparse sc.src).netloc)) := by
    rw [get_script_tags, hmain] at hsc
    simpa using hsc
  have hnet := List.of_mem_filter hmem
  have hnet2 : (urlparse page_url).netloc = (urlparse sc.src).netloc := by
    simpa using hnet
  simp [hnet2]

/-- C4 counterexample: on page `http://a.co:8080/` a script from
`http://a.co/x.js` has the same host `a.co` but a different netloc,
and the code drops it — "kept iff its resolved host equals the page's
host" fails in the "if" direction. -/
theorem same_host_different_port_excluded :
    get_script_tags "http://a.co:8080/" [⟨some "http://a.co/x.js", "<script>"⟩] = [] ∧
      url_hostname (urlparse "http://a.co/x.js").netloc =
        url_hostname (urlparse "http://a.co:8080/").netloc ∧
      url_hostname (urlparse "http://a.co/x.js").netloc = "a.co" :=
  ⟨rfl, rfl, rfl⟩

/-! ## Sourcemap locator: pattern-guess strategy
(`check_common_sourcemap_patterns`, lines 309-340, and its identical
async twin, lines 227-250).  The network validator is abstracted into a
boolean oracle on candidate URLs. -/

/-- Python `path.rsplit(".", 1)[0] if "." in path else path` (line 322): the
path up to the last `.`, or the whole path when it has none. -/
def base_path_of (path : String) : String :=
  if path.data.contains '.' then
    String.mk (((path.data.reverse.dropWhile (fun c => c ≠ '.')).drop 1).reverse)
  else path

/-- The six pattern suffix paths (lines 325-332), in source order. -/
def sourcemap_patterns (path : String) : List String :=
  let base_path := base_path_of path
  [base_path ++ ".map", base_path ++ ".js.map", base_path ++ ".css.map",
    path ++ ".map", path ++ ".js.map", path ++ ".css.map"]

/-- Function `check_common_sourcemap_patterns` (sync, lines 309-340): try each
pattern URL in order against the validator and accumulate the hits. -/
def check_common_sourcemap_patterns (script_url : String)
    (check_url : String → Bool) : List String :=
  let parsed := urlparse script_url
  (sourcemap_patterns parsed.path).foldl
    (fun acc pat =>
      if check_url (parsed.scheme ++ "://" ++ parsed.netloc ++ pat) then
        acc ++ [parsed.scheme ++ "://" ++ parsed.netloc ++ pat]
      else acc)
    []

/-- Function `check_common_sourcemap_patterns_async` (lines 227-250): the same
loop, with the async validator abstracted into the same kind of oracle. -/
def check_common_sourcemap_patterns_async (script_url : String)
    (check : String → Bool) : List String :=
  let parsed := urlparse script_url
  (sourcemap_patterns parsed.path).foldl
    (fun acc pat =>
      if check (parsed.scheme ++ "://" ++ parsed.netloc ++ pat) then
        acc ++ [parsed.scheme ++ "://" ++ parsed.netloc ++ pat]
      else acc)
    []

/-- The candidate URLs the loop submits to the validator, in order. -/
def pattern_check_trace (script_url : String) : List String :=
  let parsed := urlparse script_url
  (sourcemap_patterns parsed.path).map
    (fun pat => parsed.scheme ++ "://" ++ parsed.netloc ++ pat)

/-- The candidate URLs as §4.2 of the spec words them: the script
path's extension-stripped base (the path minus the final `.ext`
segment, or the full path if no `.`), the six suffixes
`{base}.map`, `{base}.js.map`, `{base}.css.map`, `{path}.map`,
`{path}.js.map`, `{path}.css.map` in that fixed order, each rebuilt
against the script's scheme and host. -/
def spec_pattern_candidate_urls (script_url : String) : List String :=
  let parsed := urlparse script_url
  let path := parsed.path
  let base :=
    if path.data.contains '.' then
      String.mk (((path.data.reverse.dropWhile (fun c => c ≠ '.')).drop 1).reverse)
    else path
  let against := fun (p : String) => parsed.scheme ++ "://" ++ parsed.netloc ++ p
  [against (base ++ ".map"), against (base ++ ".js.map"),
    against (base ++ ".css.map"), against (path ++ ".map"),
    against (path ++ ".js.map"), against (path ++ ".css.map")]

/-- A guarded-append fold is a mapped filter. -/
theorem foldl_guard_append {α β : Type} (g : α → β) (f : β → Bool)
    (l : List α) (acc : List β) :
    l.foldl (fun a x => if f (g x) then a ++ [g x] else a) acc =
      acc ++ (l.map g).filter f := by
  induction l generalizing acc with
  | nil => simp
  | cons x xs ih =>
    by_cases h : f (g x) <;>
      simp [ih, h, List.filter_cons, List.append_assoc]

/-- C6: for every script URL and every validator behaviour, the
pattern-guess strategy submits exactly the six §4.2 candidate URLs, in
that fixed order, and returns precisely the ones the validator accepts
— the trace has length six and does not depend on the validator, so
there is no short-circuit after a hit; the sync and async loops agree. -/
theorem pattern_strategy_six_checks (script_url : String) (check : String → Bool) :
    pattern_check_trace script_url = spec_pattern_candidate_urls script_url ∧
      (pattern_check_trace script_url).length = 6 ∧
      check_common_sourcemap_patterns script_url check =
        (pattern_check_trace script_url).filter check ∧
      check_common_sourcemap_patterns_async script_url check =
        (pattern_check_trace script_url).filter check := by
  refine ⟨rfl, rfl, ?_, ?_⟩
  · exact foldl_guard_append
      (fun pat => (urlparse script_url).scheme ++ "://" ++
        (urlparse script_url).netloc ++ pat)
      check (sourcemap_patterns (urlparse script_url).path) []
  · exact foldl_guard_append
      (fun pat => (urlparse script_url).scheme ++ "://" ++
        (urlparse script_url).netloc ++ pat)
      check (sourcemap_patterns (urlparse script_url).path) []

/-! ## Sourcemap locator: per-script candidate list
(`check_single_script_async`, lines 185-224, and the per-script body of
`check_for_sourcemaps_sync`, lines 149-181, which share this structure). -/

/-- A probe candidate record `{url, method, comment?}`. -/
structure Candidate where
  url : String
  method : String
  comment : Option String
deriving DecidableEq

/-- The merge loop (lines 220-222 async, 176-178 sync): append each
pattern hit as a `pattern` candidate unless its URL is already in the
accumulated list. -/
def add_pattern_candidates (sourcemaps : List Candidate)
    (common_sourcemaps : List String) : List Candidate :=
  common_sourcemaps.foldl
    (fun acc u =>
      if u ∈ acc.map Candidate.url then acc
      else acc ++ [{ url := u, method := "pattern", comment := none }])
    sourcemaps

/-- One script's candidate list.  Method 1 (fetch the script body, find
the first `sourceMappingURL` pragma, resolve and validate it — lines
192-214) contributes at most one `comment` candidate, abstracted here
as `comment_candidate`; Method 2 then merges the validated pattern
URLs. -/
def check_single_script (comment_candidate : Option Candidate)
    (script_url : String) (check : String → Bool) : List Candidate :=
  let sourcemaps :=
    match comment_candidate with
    | some c => [c]
    | none => []
  add_pattern_candidates sourcemaps
    (check_common_sourcemap_patterns_async script_url check)

/-- The merge loop preserves distinctness of the accumulated URLs. -/
theorem add_pattern_candidates_nodup (common_sourcemaps : List String)
    (sourcemaps : List Candidate)
    (h : (sourcemaps.map Candidate.url).Nodup) :
    ((add_pattern_candidates sourcemaps common_sourcemaps).map Candidate.url).Nodup := by
  induction common_sourcemaps generalizing sourcemaps with
  | nil => exact h
  | cons u rest ih =>
    by_cases hmem : u ∈ sourcemaps.map Candidate.url
    · have heq : add_pattern_candidates sourcemaps (u :: rest) =
          add_pattern_candidates sourcemaps rest := by
        simp only [add_pattern_candidates, List.foldl_cons, if_pos hmem]
      rw [heq]
      exact ih sourcemaps h
    · have heq : add_pattern_candidates sourcemaps (u :: rest) =
          add_pattern_candidates
            (sourcemaps ++ [{ url := u, method := "pattern", comment := none }]) rest := by
        simp only [add_pattern_candidates, List.foldl_cons, if_neg hmem]
      rw [heq]
      refine ih _ ?_
      simp [List.nodup_append, h, hmem]

/-- C9: the candidate list returned for a script contains pairwise
distinct sourcemap URLs, for every comment-strategy outcome, script URL
and validator behaviour — duplicate pattern URLs (as arise when the
script path has no `.`) and pattern hits equal to the comment hit are
merged away. -/
theorem candidate_urls_distinct (comment_candidate : Option Candidate)
    (script_url : String) (check : String → Bool) :
    ((check_single_script comment_candidate script_url check).map
      Candidate.url).Nodup := by
  refine add_pattern_candidates_nodup _ _ ?_
  cases comment_candidate <;> simp

end SourcemapParse
